import Mathlib

/-!
Verification development for the PubMed research-assistant repository.

The repository's core (the request-routing / tool-dispatch loop of
`research_paper_agent.py`, plus the pagination arithmetic of
`streamlit_app_v2.py`) is shallowly embedded below.  Utterances, tool
results and replies are modelled as `List Char`; the external world
(the language model, the esearch index and the efetch record source)
is an explicit environment of response functions, and every outward
call is recorded in an effect trace.
-/

namespace PubMed

/-- Strings are modelled as lists of characters. -/
abbrev Str := List Char

/-- A word character in the sense of the `\w` regex class (ASCII). -/
def isWordChar (c : Char) : Bool := c.isAlphanum || c == '_'

/-- Whitespace test used for Python's `\s` class and `str.strip()`. -/
def isSpaceChar (c : Char) : Bool := c.isWhitespace

/-- Python `str.isdigit()`: nonempty and all decimal digits. -/
def pyIsDigit (s : Str) : Bool := !s.isEmpty && s.all Char.isDigit

/-- Python `str.strip()`: drop whitespace from both ends. -/
def pyStrip (s : Str) : Str := List.rdropWhile isSpaceChar (s.dropWhile isSpaceChar)

/-- Maximal runs of characters satisfying `p`, in order (helper). -/
def runsAux (p : Char → Bool) : Str → Str → List Str
  | [], acc => if acc.isEmpty then [] else [acc.reverse]
  | c :: cs, acc =>
    if p c then runsAux p cs (c :: acc)
    else if acc.isEmpty then runsAux p cs []
    else acc.reverse :: runsAux p cs []

/-- The maximal word-character runs of a string, in order.  A match of
the regex `\b(\d{7,9})\b` is exactly such a run that is all digits and
has length 7 to 9. -/
def wordTokens (s : Str) : List Str := runsAux isWordChar s []

/-- Python `str.split()` with no argument: maximal non-whitespace runs. -/
def splitWs (s : Str) : List Str := runsAux (fun c => !isSpaceChar c) s []

/-- Whether a word-token is a match of `\b(\d{7,9})\b`. -/
def isIdToken (t : Str) : Bool :=
  decide (7 ≤ t.length) && decide (t.length ≤ 9) && t.all Char.isDigit

/-- `re.findall(r"\b(\d{7,9})\b", s)`: all 7-to-9-digit tokens of `s`. -/
def findIds (s : Str) : List Str := (wordTokens s).filter isIdToken

/-- `re.search(r"\b(\d{7,9})\b", s)`: the leftmost 7-to-9-digit token. -/
def findFirstId (s : Str) : Option Str := (findIds s).head?

/-- Python `str.lower()` (character-wise). -/
def toLowerStr (s : Str) : Str := s.map Char.toLower

/-- Python's `needle in hay` substring test. -/
def containsSub (needle hay : Str) : Bool := decide (needle <:+: hay)

/-- The fixed trigger-phrase set of the identifier shortcut
(`research_paper_agent.py` line 238). -/
def triggerWords : List Str :=
  ["details".toList, "paper id".toList, "tell me about".toList, "get".toList]

/-- Whether the lowercased utterance contains one of the trigger phrases. -/
def hasTriggerWord (s : Str) : Bool :=
  triggerWords.any (fun w => containsSub w (toLowerStr s))

/-- ASCII single quote (39), written via its code point. -/
def quoteC : Char := Char.ofNat 39

/-- ASCII double quote (34). -/
def dquoteC : Char := Char.ofNat 34

/-- ASCII left curly bracket (123). -/
def lbraceC : Char := Char.ofNat 123

/-- ASCII right curly bracket (125). -/
def rbraceC : Char := Char.ofNat 125

/-- The paper-id cache (`self.paper_id_cache`): an insertion-ordered
dictionary from synthetic keys to identifier strings. -/
abbrev Cache := List (Str × Str)

/-- Python dict assignment `d[k] = v`: replace in place, else append. -/
def cacheInsert (k v : Str) : Cache → Cache
  | [] => [(k, v)]
  | (k', v') :: rest =>
    if k' == k then (k, v) :: rest else (k', v') :: cacheInsert k v rest

/-- Python dict lookup `d.get(k)`. -/
def cacheFind (k : Str) : Cache → Option Str
  | [] => none
  | (k', v') :: rest => if k' == k then some v' else cacheFind k rest

/-- One entry of Python's `str(dict)` rendering. -/
def strOfEntry (e : Str × Str) : Str :=
  quoteC :: e.1 ++ (quoteC :: ':' :: ' ' :: quoteC :: e.2) ++ [quoteC]

/-- Python's `str(self.paper_id_cache)` rendering of the cache. -/
def strOfCache (c : Cache) : Str :=
  lbraceC :: List.intercalate ", ".toList (c.map strOfEntry) ++ [rbraceC]

/-- The synthetic cache key `f"paper_{i}"`. -/
def paperKey (n : Nat) : Str := "paper_".toList ++ (toString n).toList

/-- Helper for the cache-population loop (`for i, pid in enumerate(ids[:5])`). -/
def cacheIdsAux : List Str → Nat → Cache → Cache
  | [], _, c => c
  | p :: ps, i, c => cacheIdsAux ps (i + 1) (cacheInsert (paperKey (i + 1)) p c)

/-- Cache population from extracted ids (`research_paper_agent.py` lines
296-299): the first five ids are written under `paper_1` .. `paper_5`;
the previous dictionary is NOT cleared first. -/
def cacheIds (ids : List Str) (c : Cache) : Cache := cacheIdsAux (ids.take 5) 0 c

/-- The fields the record source yields for one article (the values the
XML parsing of `get_paper_details` extracts). -/
structure Article where
  title : Str
  authors : List Str
  journal : Str
  year : Str
  doi : Option Str
  abstract : Str

/-- Outcome of one efetch call: a parsed article, no matching article,
or a transport/parsing failure (the `except` branch). -/
inductive FetchResult where
  | found (a : Article)
  | missing
  | netError (msg : Str)

/-- Outcome of one esearch call: a count string and an id list, or a
transport/parsing failure. -/
inductive SearchResponse where
  | ok (count : Str) (idlist : List Str)
  | netError (msg : Str)

/-- The external world: the language model, the index and the record
source, as response functions. -/
structure Env where
  llm : Str → Str
  esearch : Str → SearchResponse
  efetch : Str → FetchResult

/-- One outward call made during a turn. -/
inductive Effect where
  | llmCall (prompt : Str)
  | searchCall (term : Str)
  | fetchCall (id : Str)
deriving DecidableEq

/-- The `result = f"""..."""` template of `get_paper_details`
(`research_paper_agent.py` lines 175-186). -/
def renderDetails (paper_id : Str) (a : Article) : Str :=
  "\nPAPER DETAILS:\n==============\nPaper ID: ".toList ++ paper_id ++
  "\nTitle: ".toList ++ a.title ++
  "\nAuthors: ".toList ++
    (if a.authors.isEmpty then "No authors listed".toList
     else List.intercalate ", ".toList a.authors) ++
  "\nJournal: ".toList ++ a.journal ++ " (".toList ++ a.year ++ ")".toList ++
  "\nDOI: ".toList ++
    (match a.doi with
     | some d => if d.isEmpty then "Not available".toList else d
     | none => "Not available".toList) ++
  "\n\nABSTRACT:\n".toList ++ a.abstract ++ "\n".toList

/-- `get_paper_details` (`research_paper_agent.py` lines 117-190): the
Record Fetcher.  Returns the reply string and the list of network calls
issued. -/
def get_paper_details (env : Env) (paper_id : Str) : Str × List Effect :=
  if pyIsDigit paper_id then
    match env.efetch paper_id with
    | .found a => (renderDetails paper_id a, [.fetchCall paper_id])
    | .missing => ("No article found for ID ".toList ++ paper_id, [.fetchCall paper_id])
    | .netError m =>
        ("Error fetching paper details: ".toList ++ m, [.fetchCall paper_id])
  else
    ("Invalid paper ID: ".toList ++ paper_id ++
     ". Paper IDs must be numeric.".toList, [])

/-- The fixed honorific-prefix list of the author-name cleanup
(`research_paper_agent.py` line 28). -/
def titlesList : List Str :=
  ["Dr.".toList, "Dr".toList, "Prof.".toList, "Prof".toList,
   "Professor".toList, "Mr.".toList, "Ms.".toList, "Mrs.".toList]

/-- One iteration of the cleanup loop: strip the honorific if the name
starts with it followed by a space, then `strip()` again. -/
def stripTitleStep (acc : Str) (t : Str) : Str :=
  if (t ++ [' ']).isPrefixOf acc then pyStrip (acc.drop t.length) else acc

/-- The author-name normalization of `search_papers_by_author`
(`research_paper_agent.py` lines 27-31). -/
def cleanAuthorName (name : Str) : Str :=
  titlesList.foldl stripTitleStep (pyStrip name)

/-- The esearch term `f"{name}[Author]"`. -/
def authorTerm (n : Str) : Str := n ++ "[Author]".toList

/-- `cleaned_name.split()[-1] if cleaned_name.split() else cleaned_name`. -/
def lastNameOf (n : Str) : Str :=
  match (splitWs n).getLast? with
  | some t => t
  | none => n

/-- The author-search summary string (`research_paper_agent.py` line 67). -/
def foundMsg (count name : Str) (ids : List Str) : Str :=
  "Found ".toList ++ count ++ " papers by ".toList ++ name ++
  ". Paper IDs: ".toList ++ List.intercalate ", ".toList (ids.take 10)

/-- The last-name-retry summary string (`research_paper_agent.py` line 65). -/
def foundLastNameMsg (count lastName : Str) (ids : List Str) : Str :=
  "Found ".toList ++ count ++ " papers by authors with last name ".toList ++
  (quoteC :: lastName ++ [quoteC]) ++
  ". Paper IDs: ".toList ++ List.intercalate ", ".toList (ids.take 10)

/-- `search_papers_by_author` (`research_paper_agent.py` lines 23-69):
clean the name, query the index, retry once with the last name only if
the count is "0". -/
def search_papers_by_author (env : Env) (author_name : Str) : Str × List Effect :=
  let cleaned := cleanAuthorName author_name
  match env.esearch (authorTerm cleaned) with
  | .netError m =>
      ("Error searching papers: ".toList ++ m, [.searchCall (authorTerm cleaned)])
  | .ok count ids =>
    if count == "0".toList then
      let lastName := lastNameOf cleaned
      match env.esearch (authorTerm lastName) with
      | .netError m =>
          ("Error searching papers: ".toList ++ m,
           [.searchCall (authorTerm cleaned), .searchCall (authorTerm lastName)])
      | .ok count2 ids2 =>
        if count2 != "0".toList then
          (foundLastNameMsg count2 lastName ids2,
           [.searchCall (authorTerm cleaned), .searchCall (authorTerm lastName)])
        else
          (foundMsg count2 cleaned ids2,
           [.searchCall (authorTerm cleaned), .searchCall (authorTerm lastName)])
    else
      (foundMsg count cleaned ids, [.searchCall (authorTerm cleaned)])

/-- The exact-match esearch term `f'"{title}"[Title]'`. -/
def quotedTitleTerm (t : Str) : Str := dquoteC :: t ++ dquoteC :: "[Title]".toList

/-- The partial-match esearch term `f"{title}[Title]"`. -/
def plainTitleTerm (t : Str) : Str := t ++ "[Title]".toList

/-- The title-search miss message (`research_paper_agent.py` line 112). -/
def noTitleMsg : Str :=
  "No papers found with this title. Try searching by author or use a shorter title.".toList

/-- `search_paper_by_title` (`research_paper_agent.py` lines 72-114):
quoted query first, unquoted retry on an empty id list, hydration of
the first identifier on any hit. -/
def search_paper_by_title (env : Env) (title : Str) : Str × List Effect :=
  let tq := quotedTitleTerm title
  match env.esearch tq with
  | .netError m => ("Error searching paper by title: ".toList ++ m, [.searchCall tq])
  | .ok _count ids =>
    match ids with
    | id1 :: _ =>
      let r := get_paper_details env id1
      (r.1, .searchCall tq :: r.2)
    | [] =>
      let tp := plainTitleTerm title
      match env.esearch tp with
      | .netError m =>
          ("Error searching paper by title: ".toList ++ m,
           [.searchCall tq, .searchCall tp])
      | .ok _count2 ids2 =>
        match ids2 with
        | id1 :: _ =>
          let r := get_paper_details env id1
          (r.1, .searchCall tq :: .searchCall tp :: r.2)
        | [] => (noTitleMsg, [.searchCall tq, .searchCall tp])

/-- The three registered tool names (`self.tools`). -/
def toolNames : List Str :=
  ["search_papers_by_author".toList, "get_paper_details".toList,
   "search_paper_by_title".toList]

/-- `execute_tool` (`research_paper_agent.py` lines 217-227). -/
def execute_tool (env : Env) (tool_name arg : Str) : Str × List Effect :=
  if toolNames.contains tool_name then
    if containsSub "author".toList tool_name then
      search_papers_by_author env arg
    else if tool_name == "get_paper_details".toList then
      get_paper_details env arg
    else if tool_name == "search_paper_by_title".toList then
      search_paper_by_title env arg
    else ("Unknown tool: ".toList ++ tool_name, [])
  else ("Unknown tool: ".toList ++ tool_name, [])

/-- One attempt of the regex `Tool:\s*(\w+)\("([^"]+)"\)` at a fixed
start position.  The greedy sub-matches of this pattern are
deterministic, so no backtracking is needed. -/
def matchToolAt (cs : Str) : Option (Str × Str) :=
  if "Tool:".toList.isPrefixOf cs then
    let r1 := (cs.drop 5).dropWhile isSpaceChar
    let name := r1.takeWhile isWordChar
    let r2 := r1.dropWhile isWordChar
    if name.isEmpty then none
    else
      match r2 with
      | '(' :: c2 :: r3 =>
        if c2 == dquoteC then
          let arg := r3.takeWhile (fun c => c != dquoteC)
          let r4 := r3.dropWhile (fun c => c != dquoteC)
          if arg.isEmpty then none
          else
            match r4 with
            | c5 :: ')' :: _ => if c5 == dquoteC then some (name, arg) else none
            | _ => none
        else none
      | _ => none
  else none

/-- `parse_tool_call` (`research_paper_agent.py` lines 205-215):
`re.search` of the tool-call pattern, leftmost match. -/
def parse_tool_call : Str → Option (Str × Str)
  | [] => none
  | c :: cs =>
    match matchToolAt (c :: cs) with
    | some r => some r
    | none => parse_tool_call cs

/-- `format_response` (`research_paper_agent.py` lines 320-327). -/
def format_response (tool_result : Str) : Str :=
  if containsSub "PAPER DETAILS:".toList tool_result then tool_result
  else if containsSub "Found".toList tool_result &&
          containsSub "papers by".toList tool_result then
    "📚 ".toList ++ tool_result ++
    "\n\nWould you like me to show details for any of these papers?".toList
  else tool_result

/-- Fuelled worker for Python `str.split(sep)` (fuel only bounds the
recursion; `s.length` steps always suffice). -/
def splitSepFuel (sep : Str) : Nat → Str → Str → List Str
  | 0, s, acc => [acc.reverse ++ s]
  | _ + 1, [], acc => [acc.reverse]
  | fuel + 1, c :: cs, acc =>
    if sep.isPrefixOf (c :: cs) && !sep.isEmpty then
      acc.reverse :: splitSepFuel sep fuel (List.drop (sep.length - 1) cs) []
    else splitSepFuel sep fuel cs (c :: acc)

/-- Python `s.split(sep)` for a nonempty separator. -/
def pySplit (sep s : Str) : List Str := splitSepFuel sep s.length s []

/-- Fifty dashes. -/
def dashes50 : Str := List.replicate 50 '-'

/-- Fifty equals signs. -/
def equals50 : Str := List.replicate 50 '='

/-- The body loop of `format_multiple_papers`
(`for i, paper in enumerate(papers[1:], 1)` with the separator rule). -/
def papersLoop (m : Nat) : List Str → Nat → Str
  | [], _ => []
  | p :: ps, i =>
    "\n📄 PAPER ".toList ++ (toString i).toList ++ ":\n".toList ++ pyStrip p ++
    (if i < m then '\n' :: dashes50 ++ "\n".toList else []) ++
    papersLoop m ps (i + 1)

/-- `format_multiple_papers` (`research_paper_agent.py` lines 329-349). -/
def format_multiple_papers (combined : Str) (count : Nat) : Str :=
  let lines := pySplit "\n".toList combined
  let summary_line := ((lines.find? (fun l => containsSub "Found".toList l)).getD [])
  let papers := pySplit "PAPER DETAILS:".toList combined
  "📚 ".toList ++ summary_line ++ "\n\n".toList ++
  "Here are details for the first ".toList ++ (toString count).toList ++
  " papers:\n".toList ++ equals50 ++ "\n".toList ++
  papersLoop (papers.length - 1) (papers.drop 1) 1 ++
  "\n\n💡 Need more papers or specific details? Just ask!".toList

/-- Python `l[-n:]`. -/
def lastN (n : Nat) (l : List Str) : List Str := l.drop (l.length - n)

/-- The fixed prompt text before the user request. -/
def promptPart1 : Str :=
  ("You are a research paper assistant. Based on the user's request, decide which tool to use.\n\n        Available tools:\n        - search_papers_by_author(\"author name\") - Search for papers by an author\n        - get_paper_details(\"paper_id\") - Get details about a specific paper (ID must be numeric)\n        - search_paper_by_title(\"paper title\") - Search for a paper by its title  # ← Added this line\n\n        User request: ").toList

/-- The fixed prompt text between the user request and the history. -/
def promptPart2 : Str := "\n\n        Recent conversation:\n        ".toList

/-- The fixed prompt text after the history. -/
def promptPart3 : Str :=
  ("\n\n        Respond with EXACTLY ONE of these formats:\n        1. If searching by author: Tool: search_papers_by_author(\"Author Name\")\n        2. If getting paper details by ID: Tool: get_paper_details(\"12345678\")\n        3. If searching by paper title: Tool: search_paper_by_title(\"Paper Title\")  # ← Added this line\n        4. If you can answer without tools: Direct: [your answer]  # ← Changed from 3 to 4\n\n        Your response:").toList

/-- The classification prompt built by `think_and_act`
(`research_paper_agent.py` lines 256-274). -/
def mkPrompt (hist : List Str) (input : Str) : Str :=
  promptPart1 ++ input ++ promptPart2 ++
  List.intercalate "\n".toList (lastN 3 hist) ++ promptPart3

/-- The fixed clarification message (`research_paper_agent.py` lines 316-318). -/
def clarificationMsg : Str :=
  "I couldn't understand your request. Please try again with a clearer query.".toList

/-- The intent resolved by the deterministic pre-filters of
`think_and_act` before any model call. -/
inductive Intent where
  | idLookup (id : Str)
  | cachedLookup (id : Str)
  | modelPhase
deriving DecidableEq

/-- The hard-coded topic phrase of the cache shortcut
(`research_paper_agent.py` line 247). -/
def cavityPhrase : Str := "cavity architecture".toList

/-- The hard-coded identifier of the cache shortcut. -/
def cavityId : Str := "37635766".toList

/-- Step 2 of the resolver: the hard-coded cache-based shortcut
(`research_paper_agent.py` lines 246-253). -/
def resolveCacheStep (cache : Cache) (input : Str) : Intent :=
  if containsSub cavityPhrase (toLowerStr input) &&
     containsSub cavityId (strOfCache cache) then
    .cachedLookup cavityId
  else .modelPhase

/-- The deterministic pre-filter stage of `think_and_act`
(`research_paper_agent.py` lines 234-253): identifier shortcut first,
then the cache shortcut, else fall through to the model call. -/
def resolveIntent (cache : Cache) (input : Str) : Intent :=
  match findFirstId input with
  | some pid =>
    if hasTriggerWord input then .idLookup pid else resolveCacheStep cache input
  | none => resolveCacheStep cache input

/-- The agent's per-session state: conversation history and id cache. -/
structure AgentState where
  history : List Str
  cache : Cache

/-- The outcome of one turn: the reply, the successor state and the
trace of outward calls, in order. -/
structure TurnOut where
  reply : Str
  state : AgentState
  effects : List Effect

/-- The history entry `f"Tool: {tool_name}, Result: {result[:200]}..."`. -/
def toolHistEntry (tool_name result : Str) : Str :=
  "Tool: ".toList ++ tool_name ++ ", Result: ".toList ++ result.take 200 ++ "...".toList

/-- `think_and_act` (`research_paper_agent.py` lines 229-318): the
dispatch loop for one turn. -/
def think_and_act (env : Env) (st : AgentState) (input : Str) : TurnOut :=
  let hist1 := st.history ++ ["User: ".toList ++ input]
  match resolveIntent st.cache input with
  | .idLookup pid =>
    let r := get_paper_details env pid
    { reply := format_response r.1,
      state := { history := hist1 ++ ["Tool Result: ".toList ++ r.1], cache := st.cache },
      effects := r.2 }
  | .cachedLookup cid =>
    let r := get_paper_details env cid
    { reply := format_response r.1,
      state := { history := hist1 ++ ["Tool Result: ".toList ++ r.1], cache := st.cache },
      effects := r.2 }
  | .modelPhase =>
    let prompt := mkPrompt hist1 input
    let out := env.llm prompt
    if "Direct:".toList.isPrefixOf out then
      { reply := pyStrip (out.drop 7),
        state := { history := hist1, cache := st.cache },
        effects := [.llmCall prompt] }
    else
      match parse_tool_call out with
      | none =>
        { reply := clarificationMsg,
          state := { history := hist1, cache := st.cache },
          effects := [.llmCall prompt] }
      | some (tname, arg) =>
        let r := execute_tool env tname arg
        let hist2 := hist1 ++ [toolHistEntry tname r.1]
        let cache2 :=
          if containsSub "Paper IDs:".toList r.1 then cacheIds (findIds r.1) st.cache
          else st.cache
        if tname == "search_papers_by_author".toList &&
           containsSub "Paper IDs:".toList r.1 then
          let pids := (findIds r.1).take 3
          let fetched := pids.map (fun p => get_paper_details env p)
          let combined :=
            List.intercalate "\n\n".toList (r.1 :: fetched.map Prod.fst)
          { reply := format_multiple_papers combined pids.length,
            state := { history := hist2, cache := cache2 },
            effects := .llmCall prompt :: r.2 ++ (fetched.map Prod.snd).flatten }
        else
          { reply := format_response r.1,
            state := { history := hist2, cache := cache2 },
            effects := .llmCall prompt :: r.2 }

/-- `total_pages` of `display_all_author_papers`
(`streamlit_app_v2.py` line 526). -/
def totalPages (numIds papersPerPage : Nat) : Nat :=
  (numIds + papersPerPage - 1) / papersPerPage

/-- The page clamp of `display_all_author_papers`
(`streamlit_app_v2.py` lines 541-544). -/
def clampPage (p tp : Nat) : Nat :=
  let p1 := if p > tp then tp else p
  if p1 < 1 then 1 else p1

/-- `start_idx = (current_page - 1) * papers_per_page`. -/
def pageStart (p s : Nat) : Nat := (p - 1) * s

/-- `end_idx = min(start_idx + papers_per_page, len(paper_ids))`. -/
def pageEnd (p s n : Nat) : Nat := min (pageStart p s + s) n

/-- `paper_ids[start_idx:end_idx]` (`streamlit_app_v2.py` line 551). -/
def pageSlice (ids : List Str) (p s : Nat) : List Str :=
  (ids.drop (pageStart p s)).take (pageEnd p s ids.length - pageStart p s)

/-! ### Helper lemmas about the tokenizer -/

theorem runsAux_cons_pos (p : Char → Bool) (c : Char) (cs acc : Str) (h : p c = true) :
    runsAux p (c :: cs) acc = runsAux p cs (c :: acc) := by
  simp [runsAux, h]

theorem runsAux_cons_neg_nil (p : Char → Bool) (c : Char) (cs : Str) (h : p c = false) :
    runsAux p (c :: cs) [] = runsAux p cs [] := by
  simp [runsAux, h]

theorem runsAux_peel (p : Char → Bool) (t : Str) :
    ∀ (rest acc : Str), (∀ c ∈ t, p c = true) → (acc ≠ [] ∨ t ≠ []) →
    (∀ c, rest.head? = some c → p c = false) →
    runsAux p (t ++ rest) acc = (acc.reverse ++ t) :: runsAux p rest [] := by
  induction t with
  | nil =>
    intro rest acc _ hne hrest
    have hacc : acc ≠ [] := by
      rcases hne with h | h
      · exact h
      · simp at h
    cases rest with
    | nil => simp [runsAux, hacc]
    | cons c cs =>
      have hc : p c = false := hrest c rfl
      simp [runsAux, hc, hacc]
  | cons x t ih =>
    intro rest acc ht hne hrest
    have hx : p x = true := ht x (by simp)
    rw [List.cons_append, runsAux_cons_pos p x _ acc hx,
      ih rest (x :: acc) (fun c hc => ht c (by simp [hc])) (Or.inl (by simp)) hrest]
    simp

theorem runsAux_boundary_append (p : Char → Bool) (c : Char) (hc : p c = false) :
    ∀ (a b acc : Str),
    runsAux p ((a ++ [c]) ++ b) acc = runsAux p (a ++ [c]) acc ++ runsAux p b [] := by
  intro a
  induction a with
  | nil =>
    intro b acc
    cases acc with
    | nil => simp [runsAux, hc]
    | cons y ys => simp [runsAux, hc]
  | cons x a ih =>
    intro b acc
    simp only [List.cons_append]
    by_cases hx : p x = true
    · rw [runsAux_cons_pos p x ((a ++ [c]) ++ b) acc hx,
        runsAux_cons_pos p x (a ++ [c]) acc hx, ih]
    · have hx' : p x = false := by simpa using hx
      cases acc with
      | nil =>
        rw [runsAux_cons_neg_nil p x ((a ++ [c]) ++ b) hx',
          runsAux_cons_neg_nil p x (a ++ [c]) hx', ih]
      | cons y ys =>
        have h1 : runsAux p (x :: ((a ++ [c]) ++ b)) (y :: ys) =
            (y :: ys).reverse :: runsAux p ((a ++ [c]) ++ b) [] := by
          simp [runsAux, hx']
        have h2 : runsAux p (x :: (a ++ [c])) (y :: ys) =
            (y :: ys).reverse :: runsAux p (a ++ [c]) [] := by
          simp [runsAux, hx']
        rw [h1, h2, ih b []]
        simp

theorem runsAux_intercalate_ids (ids : List Str)
    (h : ∀ i ∈ ids, i ≠ [] ∧ ∀ c ∈ i, isWordChar c = true) :
    runsAux isWordChar (List.intercalate ", ".toList ids) [] = ids := by
  induction ids with
  | nil => simp [List.intercalate, runsAux]
  | cons i tl ih =>
    cases tl with
    | nil =>
      have hi := h i (by simp)
      have := runsAux_peel isWordChar i [] [] hi.2 (Or.inr hi.1)
        (fun c hc => by simp at hc)
      simpa [List.intercalate] using this
    | cons j tl' =>
      have hic : List.intercalate ", ".toList (i :: j :: tl') =
          i ++ (',' :: ' ' :: List.intercalate ", ".toList (j :: tl')) := by
        simp [List.intercalate, List.intersperse]
      have hi := h i (by simp)
      rw [hic, runsAux_peel isWordChar i _ [] hi.2 (Or.inr hi.1)
        (fun c hc => by simp at hc; subst hc; decide)]
      have hrest : runsAux isWordChar
          (',' :: ' ' :: List.intercalate ", ".toList (j :: tl')) [] =
          runsAux isWordChar (List.intercalate ", ".toList (j :: tl')) [] := by
        rw [runsAux_cons_neg_nil isWordChar ',' _ (by decide),
          runsAux_cons_neg_nil isWordChar ' ' _ (by decide)]
      rw [hrest, ih (fun x hx => h x (by simp [hx]))]
      simp

/-! ### Helper lemmas about substring search and id tokens -/

theorem containsSub_of_infix {n a : Str} (h : n <:+: a) : containsSub n a = true := by
  simp [containsSub, h]

theorem containsSub_left {n a : Str} (h : n <:+: a) (b : Str) :
    containsSub n (a ++ b) = true :=
  containsSub_of_infix (h.trans ((List.prefix_append a b).isInfix))

theorem containsSub_false_of_not_mem {n h : Str} (c : Char) (hc : c ∈ n) (hh : c ∉ h) :
    containsSub n h = false := by
  simp only [containsSub, decide_eq_false_iff_not]
  intro hinf
  exact hh (hinf.subset hc)

theorem isIdToken_facts {t : Str} (h : isIdToken t = true) :
    pyIsDigit t = true ∧ 7 ≤ t.length ∧ t.length ≤ 9 ∧ ∀ c ∈ t, c.isDigit = true := by
  simp only [isIdToken, Bool.and_eq_true, decide_eq_true_eq, List.all_eq_true] at h
  obtain ⟨⟨h7, h9⟩, hall⟩ := h
  refine ⟨?_, h7, h9, hall⟩
  have hne : t ≠ [] := by
    intro he
    rw [he] at h7
    simp at h7
  simp only [pyIsDigit, Bool.and_eq_true, Bool.not_eq_true']
  constructor
  · simpa using hne
  · rw [List.all_eq_true]
    exact hall

theorem isWordChar_of_digit {c : Char} (h : c.isDigit = true) : isWordChar c = true := by
  simp [isWordChar, Char.isAlphanum, h]

theorem findFirstId_isIdToken {s pid : Str} (h : findFirstId s = some pid) :
    isIdToken pid = true := by
  have hmem : pid ∈ findIds s := by
    unfold findFirstId at h
    cases hfi : findIds s with
    | nil => rw [hfi] at h; simp at h
    | cons a tl =>
      rw [hfi] at h
      simp at h
      simp [h]
  exact (List.mem_filter.mp hmem).2

/-! ### Helper lemmas about the Record Fetcher -/

theorem gpd_effects (env : Env) (i : Str) (h : pyIsDigit i = true) :
    (get_paper_details env i).2 = [Effect.fetchCall i] := by
  unfold get_paper_details
  rw [h]
  cases henv : env.efetch i <;> simp

/-! ### Helper lemmas about the cache -/

theorem cacheFind_cacheInsert_self (k v : Str) (c : Cache) :
    cacheFind k (cacheInsert k v c) = some v := by
  induction c with
  | nil => simp [cacheInsert, cacheFind]
  | cons e rest ih =>
    obtain ⟨k', v'⟩ := e
    by_cases h : (k' == k) = true
    · simp [cacheInsert, cacheFind, h]
    · have h' : (k' == k) = false := by simpa using h
      simp [cacheInsert, cacheFind, h', ih]

theorem cacheFind_cacheInsert_ne (k k' v : Str) (c : Cache) (h : k' ≠ k) :
    cacheFind k (cacheInsert k' v c) = cacheFind k c := by
  have hbe : (k' == k) = false := by simpa using h
  induction c with
  | nil => simp [cacheInsert, cacheFind, hbe]
  | cons e rest ih =>
    obtain ⟨k'', v''⟩ := e
    by_cases h2 : (k'' == k') = true
    · have : (k'' == k) = false := by
        have := eq_of_beq h2
        subst this
        exact hbe
      simp [cacheInsert, cacheFind, h2, this, hbe]
    · have h2' : (k'' == k') = false := by simpa using h2
      simp only [cacheInsert, h2', Bool.false_eq_true, if_false]
      by_cases h3 : (k'' == k) = true
      · simp [cacheFind, h3]
      · have h3' : (k'' == k) = false := by simpa using h3
        simp [cacheFind, h3', ih]

/-! ### Helper lemmas about Python strip() -/

theorem pyStrip_idem (s : Str) : pyStrip (pyStrip s) = pyStrip s := by
  unfold pyStrip
  have hdy : List.dropWhile isSpaceChar (List.dropWhile isSpaceChar s) =
      List.dropWhile isSpaceChar s := List.dropWhile_idempotent _ _
  have key : List.dropWhile isSpaceChar
      (List.rdropWhile isSpaceChar (List.dropWhile isSpaceChar s)) =
      List.rdropWhile isSpaceChar (List.dropWhile isSpaceChar s) := by
    cases hz : List.rdropWhile isSpaceChar (List.dropWhile isSpaceChar s) with
    | nil => simp
    | cons a z' =>
      have hpre := List.rdropWhile_prefix isSpaceChar (List.dropWhile isSpaceChar s)
      rw [hz] at hpre
      obtain ⟨t, ht⟩ := hpre
      have hya : List.dropWhile isSpaceChar s = a :: (z' ++ t) := by
        rw [← ht]
        simp
      have hpa : isSpaceChar a = false := by
        by_contra hpa'
        have hpa : isSpaceChar a = true := by simpa using hpa'
        rw [hya, List.dropWhile_cons, if_pos hpa] at hdy
        have hlen := congrArg List.length hdy
        have hle : (List.dropWhile isSpaceChar (z' ++ t)).length ≤ (z' ++ t).length :=
          (List.dropWhile_suffix isSpaceChar).sublist.length_le
        simp only [List.length_cons, List.length_append] at hlen hle
        omega
      simp [List.dropWhile_cons, hpa]
  rw [key, List.rdropWhile_idempotent]

theorem pyStrip_stripTitleStep (acc t : Str) (h : pyStrip acc = acc) :
    pyStrip (stripTitleStep acc t) = stripTitleStep acc t := by
  unfold stripTitleStep
  split
  · exact pyStrip_idem _
  · exact h

theorem pyStrip_foldl_stripTitleStep (ts : List Str) (acc : Str) (h : pyStrip acc = acc) :
    pyStrip (ts.foldl stripTitleStep acc) = ts.foldl stripTitleStep acc := by
  induction ts generalizing acc with
  | nil => exact h
  | cons t ts ih => exact ih _ (pyStrip_stripTitleStep _ _ h)

theorem pyStrip_cleanAuthorName (x : Str) :
    pyStrip (cleanAuthorName x) = cleanAuthorName x :=
  pyStrip_foldl_stripTitleStep _ _ (pyStrip_idem x)

theorem foldl_stripTitleStep_id (ts : List Str) (acc : Str)
    (h : ∀ t ∈ ts, ((t ++ [' ']).isPrefixOf acc) = false) :
    ts.foldl stripTitleStep acc = acc := by
  induction ts with
  | nil => rfl
  | cons t ts ih =>
    have h1 : stripTitleStep acc t = acc := by
      unfold stripTitleStep
      rw [h t (by simp)]
      simp
    rw [List.foldl_cons, h1]
    exact ih (fun t' ht' => h t' (by simp [ht']))

/-! ### Claim theorems -/

/-- A fixed environment whose record source reports every article as
missing (used to instantiate witnesses). -/
def envMissing : Env :=
  { llm := fun _ => [], esearch := fun _ => .ok "0".toList [], efetch := fun _ => .missing }

/-- The empty initial agent state. -/
def st0 : AgentState := { history := [], cache := [] }

/-- Claim C7: for every string that is not composed entirely of decimal
digits (including the empty string), the Record Fetcher returns the
validation-error value and issues no network call at all (so the call is
in particular never retried). -/
theorem C7_fetch_validation (env : Env) (s : Str) (h : pyIsDigit s = false) :
    get_paper_details env s =
      ("Invalid paper ID: ".toList ++ s ++ ". Paper IDs must be numeric.".toList, []) := by
  simp [get_paper_details, h]

/-- Witness for C7 at the concrete inputs "12ab" and "". -/
theorem C7_fetch_validation_witness :
    get_paper_details envMissing "12ab".toList =
      ("Invalid paper ID: ".toList ++ "12ab".toList ++
       ". Paper IDs must be numeric.".toList, []) ∧
    get_paper_details envMissing [] =
      ("Invalid paper ID: ".toList ++ [] ++ ". Paper IDs must be numeric.".toList, []) :=
  ⟨C7_fetch_validation envMissing "12ab".toList (by decide),
   C7_fetch_validation envMissing [] (by decide)⟩

/-- Claim C3 counterexample: the author-name normalization is not
idempotent.  On "Dr. Dr. Smith" one application strips only the first
honorific (the loop has already passed the "Dr." entry when the second
one becomes exposed), so a second application strips further. -/
theorem C3_normalize_not_idempotent :
    cleanAuthorName "Dr. Dr. Smith".toList = "Dr. Smith".toList ∧
    cleanAuthorName (cleanAuthorName "Dr. Dr. Smith".toList) = "Smith".toList ∧
    cleanAuthorName (cleanAuthorName "Dr. Dr. Smith".toList) ≠
      cleanAuthorName "Dr. Dr. Smith".toList := by decide

/-- Claim C3 (amended): for every honorific prefix P in the fixed set the
normalization maps "P Jane Doe" to "Jane Doe", and the normalization is
idempotent at every input whose normal form does not itself begin with an
honorific prefix followed by a space (unrestricted idempotence fails, see
the counterexample). -/
theorem C3_normalize_amended :
    (∀ t ∈ titlesList, cleanAuthorName (t ++ " Jane Doe".toList) = "Jane Doe".toList) ∧
    (∀ x : Str,
      titlesList.all (fun t => !((t ++ [' ']).isPrefixOf (cleanAuthorName x))) = true →
      cleanAuthorName (cleanAuthorName x) = cleanAuthorName x) := by
  constructor
  · decide
  · intro x hx
    have hfix : pyStrip (cleanAuthorName x) = cleanAuthorName x := pyStrip_cleanAuthorName x
    show titlesList.foldl stripTitleStep (pyStrip (cleanAuthorName x)) = cleanAuthorName x
    rw [hfix]
    apply foldl_stripTitleStep_id
    intro t ht
    simp only [List.all_eq_true] at hx
    simpa using hx t ht

/-- Witness for C3 (amended) at "Prof." and at a padded concrete name. -/
theorem C3_normalize_amended_witness :
    cleanAuthorName ("Prof.".toList ++ " Jane Doe".toList) = "Jane Doe".toList ∧
    cleanAuthorName (cleanAuthorName "  Dr. Jane Doe ".toList) =
      cleanAuthorName "  Dr. Jane Doe ".toList :=
  ⟨C3_normalize_amended.1 "Prof.".toList (by decide),
   C3_normalize_amended.2 "  Dr. Jane Doe ".toList (by decide)⟩

/-- Claim C8 counterexample: for an empty identifier list (n = 0) the
code computes total_pages = 0 but clamps the requested page to 1, which
is not in the interval [1, total_pages]; the clamp property claimed for
every identifier list fails at n = 0. -/
theorem C8_pagination_empty_counterexample :
    totalPages 0 10 = 0 ∧ clampPage 5 (totalPages 0 10) = 1 ∧
    ¬ clampPage 5 (totalPages 0 10) ≤ totalPages 0 10 := by decide

/-- Claim C8 (amended): for every page size s > 0 and every NONEMPTY
identifier list of length n, total_pages is the ceiling of n / s
(characterized as the least m with n ≤ m * s), the current page is
clamped into [1, total_pages] and left unchanged when already in range,
and the hydrated slice is the half-open interval
[(page-1)*s, min(page*s, n)) of the identifier list. -/
theorem C8_pagination (n s p : Nat) (hs : 0 < s) (hn : 0 < n) :
    (n ≤ totalPages n s * s ∧ ∀ m : Nat, n ≤ m * s → totalPages n s ≤ m) ∧
    (1 ≤ clampPage p (totalPages n s) ∧ clampPage p (totalPages n s) ≤ totalPages n s) ∧
    (1 ≤ p → p ≤ totalPages n s → clampPage p (totalPages n s) = p) ∧
    (∀ ids : List Str, ids.length = n → 1 ≤ p →
      pageSlice ids p s = (ids.take (min (p * s) n)).drop ((p - 1) * s)) := by
  have hceil1 : n ≤ totalPages n s * s := by
    have h1 : totalPages n s ≤ totalPages n s := le_refl _
    unfold totalPages at h1 ⊢
    rw [Nat.div_le_iff_le_mul_add_pred hs] at h1
    rw [Nat.mul_comm]
    generalize s * ((n + s - 1) / s) = u at h1 ⊢
    omega
  have hceil2 : ∀ m : Nat, n ≤ m * s → totalPages n s ≤ m := by
    intro m hm
    unfold totalPages
    rw [Nat.div_le_iff_le_mul_add_pred hs]
    rw [Nat.mul_comm] at hm
    generalize s * m = u at hm ⊢
    omega
  have htp1 : 1 ≤ totalPages n s := by
    rcases Nat.eq_zero_or_pos (totalPages n s) with h0 | h1
    · rw [h0] at hceil1
      simp at hceil1
      omega
    · exact h1
  refine ⟨⟨hceil1, hceil2⟩, ?_, ?_, ?_⟩
  · simp only [clampPage]
    split_ifs <;> omega
  · intro h1 h2
    simp only [clampPage]
    split_ifs <;> omega
  · intro ids hlen hp
    obtain ⟨q, rfl⟩ : ∃ q, p = q + 1 := ⟨p - 1, by omega⟩
    unfold pageSlice pageEnd pageStart
    rw [hlen, List.drop_take]
    simp only [Nat.add_sub_cancel]
    rw [show q * s + s = (q + 1) * s by ring]

/-- Witness for C8 (amended) at the spec's concrete numbers: 23
identifiers with page size 10 give 3 pages, page 5 clamps to within
range, and the page-2 slice is the spec's half-open interval. -/
theorem C8_pagination_witness :
    (23 ≤ totalPages 23 10 * 10) ∧
    clampPage 5 (totalPages 23 10) ≤ totalPages 23 10 ∧
    (1 ≤ 2 → 2 ≤ totalPages 23 10 → clampPage 2 (totalPages 23 10) = 2) ∧
    pageSlice ((List.range 23).map (fun k => (toString (10000000 + k)).toList)) 2 10 =
      (((List.range 23).map (fun k => (toString (10000000 + k)).toList)).take
        (min (2 * 10) 23)).drop ((2 - 1) * 10) :=
  ⟨((C8_pagination 23 10 5 (by decide) (by decide)).1).1,
   ((C8_pagination 23 10 5 (by decide) (by decide)).2.1).2,
   ((C8_pagination 23 10 2 (by decide) (by decide)).2.2).1,
   ((C8_pagination 23 10 2 (by decide) (by decide)).2.2).2
     ((List.range 23).map (fun k => (toString (10000000 + k)).toList)) (by decide) (by decide)⟩

/-- Claim C4 (amended): a new search with k returned identifiers
overwrites only the cache entries under keys paper_1 .. paper_k; entries
under other keys (for example paper_3 .. paper_5 from an earlier, larger
search) are left in place, shown here for a two-identifier search over
an arbitrary pre-existing cache. -/
theorem C4_cache_partial_overwrite (a b : Str) (c : Cache) :
    cacheFind (paperKey 1) (cacheIds [a, b] c) = some a ∧
    cacheFind (paperKey 2) (cacheIds [a, b] c) = some b ∧
    ∀ k, k ≠ paperKey 1 → k ≠ paperKey 2 →
      cacheFind k (cacheIds [a, b] c) = cacheFind k c := by
  have h : cacheIds [a, b] c = cacheInsert (paperKey 2) b (cacheInsert (paperKey 1) a c) := rfl
  refine ⟨?_, ?_, ?_⟩
  · rw [h, cacheFind_cacheInsert_ne _ _ _ _ (by decide), cacheFind_cacheInsert_self]
  · rw [h, cacheFind_cacheInsert_self]
  · intro k h1 h2
    rw [h, cacheFind_cacheInsert_ne _ _ _ _ (Ne.symm h2),
      cacheFind_cacheInsert_ne _ _ _ _ (Ne.symm h1)]

/-- Witness for C4 (amended) at concrete identifiers over a concrete
five-entry cache. -/
theorem C4_cache_partial_overwrite_witness :
    cacheFind (paperKey 1)
      (cacheIds ["40000001".toList, "40000002".toList]
        [(paperKey 3, "30000003".toList)]) = some "40000001".toList ∧
    cacheFind (paperKey 3)
      (cacheIds ["40000001".toList, "40000002".toList]
        [(paperKey 3, "30000003".toList)]) =
      cacheFind (paperKey 3) [(paperKey 3, "30000003".toList)] :=
  ⟨(C4_cache_partial_overwrite "40000001".toList "40000002".toList
      [(paperKey 3, "30000003".toList)]).1,
   (C4_cache_partial_overwrite "40000001".toList "40000002".toList
      [(paperKey 3, "30000003".toList)]).2.2 (paperKey 3) (by decide) (by decide)⟩

/-- Environment for the first turn of the C4 counterexample: the model
requests an author search and the index reports five identifiers. -/
def envC4a : Env :=
  { llm := fun _ => "Tool: search_papers_by_author(\"Jane Doe\")".toList,
    esearch := fun _ => .ok "5".toList
      ["30000001".toList, "30000002".toList, "30000003".toList,
       "30000004".toList, "30000005".toList],
    efetch := fun _ => .missing }

/-- Environment for the second turn of the C4 counterexample: a later
author search returns only two identifiers. -/
def envC4b : Env :=
  { llm := fun _ => "Tool: search_papers_by_author(\"John Poe\")".toList,
    esearch := fun _ => .ok "2".toList ["40000001".toList, "40000002".toList],
    efetch := fun _ => .missing }

/-- State after the first (five-identifier) search turn. -/
def c4afterFirst : AgentState :=
  (think_and_act envC4a st0 "papers by Jane Doe".toList).state

/-- State after the second (two-identifier) search turn. -/
def c4afterSecond : AgentState :=
  (think_and_act envC4b c4afterFirst "papers by John Poe".toList).state

/-- Claim C4 counterexample: after a five-identifier search followed by a
two-identifier search, the cache still holds the third identifier of the
FIRST search under paper_3 — the cache is not fully overwritten, so an
entry cached by the earlier search survives the later, smaller search. -/
theorem C4_cache_counterexample :
    cacheFind "paper_3".toList c4afterSecond.cache = some "30000003".toList ∧
    cacheFind "paper_1".toList c4afterSecond.cache = some "40000001".toList ∧
    "30000003".toList ∉ ["40000001".toList, "40000002".toList] := by decide

/-- Claim C9 counterexample: with an identifier cached from an earlier
topic search (topic "genome mining", cached id 40125545), an utterance
repeating that topic does NOT make the resolver emit an id lookup of the
cached identifier — the resolver falls through to the model phase.  The
shortcut exists only for the hard-coded phrase "cavity architecture" and
the hard-coded id 37635766. -/
theorem C9_cache_shortcut_counterexample :
    resolveIntent [("paper_1".toList, "40125545".toList)]
      "more on genome mining please".toList = Intent.modelPhase ∧
    resolveIntent [("paper_1".toList, "40125545".toList)]
      "more on genome mining please".toList ≠ Intent.idLookup "40125545".toList := by decide

/-- Claim C9 (amended): the cache-based shortcut fires exactly for the
hard-coded pair: when the identifier shortcut does not apply, the
lowercased utterance contains "cavity architecture" and "37635766"
occurs in the string rendering of the cache, the resolver emits a lookup
of the hard-coded identifier 37635766, and the turn issues exactly one
Record Fetcher call and no model call. -/
theorem C9_cache_shortcut (env : Env) (st : AgentState) (input : Str)
    (hid : findFirstId input = none ∨ hasTriggerWord input = false)
    (hph : containsSub cavityPhrase (toLowerStr input) = true)
    (hcc : containsSub cavityId (strOfCache st.cache) = true) :
    resolveIntent st.cache input = .cachedLookup cavityId ∧
    (think_and_act env st input).effects = [.fetchCall cavityId] ∧
    ∀ pr, Effect.llmCall pr ∉ (think_and_act env st input).effects := by
  have hres : resolveIntent st.cache input = .cachedLookup cavityId := by
    unfold resolveIntent resolveCacheStep
    rcases hid with h | h
    · simp [h, hph, hcc]
    · cases hf : findFirstId input with
      | none => simp [hph, hcc]
      | some pid => simp [h, hph, hcc]
  have hfx : (get_paper_details env cavityId).2 = [Effect.fetchCall cavityId] :=
    gpd_effects env cavityId (by decide)
  refine ⟨hres, ?_, ?_⟩
  · simp [think_and_act, hres, hfx]
  · intro pr
    simp [think_and_act, hres, hfx]

/-- State holding the hard-coded identifier in its cache (for the C9
witness). -/
def stC9 : AgentState :=
  { history := [], cache := [("paper_1".toList, "37635766".toList)] }

/-- Witness for C9 (amended) at a concrete utterance and cache. -/
theorem C9_cache_shortcut_witness :
    resolveIntent stC9.cache "what about the cavity architecture paper".toList =
      Intent.cachedLookup cavityId ∧
    (think_and_act envMissing stC9
      "what about the cavity architecture paper".toList).effects =
      [Effect.fetchCall cavityId] :=
  ⟨(C9_cache_shortcut envMissing stC9 "what about the cavity architecture paper".toList
      (Or.inl (by decide)) (by decide) (by decide)).1,
   (C9_cache_shortcut envMissing stC9 "what about the cavity architecture paper".toList
      (Or.inl (by decide)) (by decide) (by decide)).2.1⟩

/-- Utterance for the C10 run. -/
def c10input : Str := "papers by Jane Doe".toList

/-- Environment for the C10 run: the index reports a 7-digit total count
(1234567) together with one 8-digit identifier and one 6-digit
identifier. -/
def envC10 : Env :=
  { llm := fun _ => "Tool: search_papers_by_author(\"Jane Doe\")".toList,
    esearch := fun _ => .ok "1234567".toList ["40125545".toList, "123456".toList],
    efetch := fun _ => .missing }

/-- Claim C10: the dispatch loop recovers identifiers by regex-scanning
the rendered summary string, so a 7-digit total count is cached under
paper_1 and hydrated as though it were an identifier, while the 6-digit
identifier returned by the index is neither cached nor expanded; and
every token the scan can ever recover has between 7 and 9 characters. -/
theorem C10_summary_scan :
    (cacheFind "paper_1".toList (think_and_act envC10 st0 c10input).state.cache =
        some "1234567".toList ∧
      Effect.fetchCall "1234567".toList ∈ (think_and_act envC10 st0 c10input).effects ∧
      cacheFind "paper_2".toList (think_and_act envC10 st0 c10input).state.cache =
        some "40125545".toList ∧
      (think_and_act envC10 st0 c10input).state.cache.length = 2 ∧
      Effect.fetchCall "123456".toList ∉ (think_and_act envC10 st0 c10input).effects) ∧
    ∀ s t : Str, t ∈ findIds s → 7 ≤ t.length ∧ t.length ≤ 9 := by
  constructor
  · decide
  · intro s t ht
    have hf := isIdToken_facts (List.mem_filter.mp ht).2
    exact ⟨hf.2.1, hf.2.2.1⟩

/-- Witness for C10 at a concrete summary string and token. -/
theorem C10_summary_scan_witness :
    7 ≤ ("9999999".toList : Str).length ∧ ("9999999".toList : Str).length ≤ 9 :=
  C10_summary_scan.2 "id 9999999 x".toList "9999999".toList (by decide)

/-! ### Helper lemmas for the identifier-shortcut and unknown-tool claims -/

theorem infix_sandwich (s n t : Str) : n <:+: s ++ (n ++ t) :=
  ⟨s, t, by simp⟩

theorem renderDetails_shape (pid : Str) (a : Article) :
    ∃ rest : Str, renderDetails pid a =
      "\nPAPER DETAILS:\n==============\nPaper ID: ".toList ++ (pid ++ rest) :=
  ⟨"\nTitle: ".toList ++ (a.title ++ ("\nAuthors: ".toList ++
    ((if a.authors.isEmpty then "No authors listed".toList
      else List.intercalate ", ".toList a.authors) ++
     ("\nJournal: ".toList ++ (a.journal ++ (" (".toList ++ (a.year ++
      (")".toList ++ ("\nDOI: ".toList ++
       ((match a.doi with
         | some d => if d.isEmpty then "Not available".toList else d
         | none => "Not available".toList) ++
        ("\n\nABSTRACT:\n".toList ++ (a.abstract ++ "\n".toList)))))))))))),
   by simp [renderDetails, List.append_assoc]⟩

theorem not_mem_of_all_digit {pid : Str} (hall : ∀ c ∈ pid, c.isDigit = true)
    {c : Char} (hc : c.isDigit = false) : c ∉ pid := by
  intro hmem
  rw [hall c hmem] at hc
  exact Bool.noConfusion hc

theorem format_response_cases (r : Str) :
    format_response r = r ∨
    format_response r = "📚 ".toList ++ r ++
      "\n\nWould you like me to show details for any of these papers?".toList := by
  unfold format_response
  split_ifs <;> simp

theorem ne_of_head (a b : Char) (s t : Str) (h : a ≠ b) : (a :: s) ≠ (b :: t) := by
  intro he
  injection he with h1 _
  exact h h1

/-- Claim C1: whenever the utterance contains a 7-to-9-digit token and a
trigger phrase, the resolver emits an id lookup of the (leftmost) token,
the turn issues exactly one Record Fetcher call and no model call, and —
as long as that fetch does not fail at the transport layer — the
single-record reply contains the identifier verbatim. -/
theorem C1_id_shortcut (env : Env) (st : AgentState) (input pid : Str)
    (hid : findFirstId input = some pid)
    (htrig : hasTriggerWord input = true)
    (hnet : ∀ m, env.efetch pid ≠ .netError m) :
    resolveIntent st.cache input = .idLookup pid ∧
    (think_and_act env st input).effects = [.fetchCall pid] ∧
    (∀ pr, Effect.llmCall pr ∉ (think_and_act env st input).effects) ∧
    pid <:+: (think_and_act env st input).reply := by
  have hres : resolveIntent st.cache input = .idLookup pid := by
    unfold resolveIntent
    rw [hid]
    simp [htrig]
  obtain ⟨hdig, h7, h9, hall⟩ := isIdToken_facts (findFirstId_isIdToken hid)
  have hfx : (get_paper_details env pid).2 = [Effect.fetchCall pid] :=
    gpd_effects env pid hdig
  have hkey : pid <:+: format_response ((get_paper_details env pid).1) := by
    cases henv : env.efetch pid with
    | found a =>
      have hr1 : (get_paper_details env pid).1 = renderDetails pid a := by
        simp [get_paper_details, hdig, henv]
      obtain ⟨rest, hsh⟩ := renderDetails_shape pid a
      have hc1 : containsSub "PAPER DETAILS:".toList (renderDetails pid a) = true := by
        rw [hsh]
        exact containsSub_left (by decide) _
      rw [hr1]
      simp only [format_response, hc1, if_true]
      rw [hsh]
      exact infix_sandwich _ _ _
    | missing =>
      have hr1 : (get_paper_details env pid).1 =
          "No article found for ID ".toList ++ pid := by
        simp [get_paper_details, hdig, henv]
      have hPmem : 'P' ∉ "No article found for ID ".toList ++ pid := by
        intro hmem
        rcases List.mem_append.mp hmem with h | h
        · revert h
          decide
        · exact not_mem_of_all_digit hall (by decide) h
      have hFmem : 'F' ∉ "No article found for ID ".toList ++ pid := by
        intro hmem
        rcases List.mem_append.mp hmem with h | h
        · revert h
          decide
        · exact not_mem_of_all_digit hall (by decide) h
      have hc1 : containsSub "PAPER DETAILS:".toList
          ("No article found for ID ".toList ++ pid) = false :=
        containsSub_false_of_not_mem 'P' (by decide) hPmem
      have hc2 : containsSub "Found".toList
          ("No article found for ID ".toList ++ pid) = false :=
        containsSub_false_of_not_mem 'F' (by decide) hFmem
      rw [hr1]
      simp only [format_response, hc1, hc2, Bool.false_eq_true, if_false,
        Bool.false_and]
      exact ⟨"No article found for ID ".toList, [], by simp⟩
    | netError m => exact absurd henv (hnet m)
  refine ⟨hres, ?_, ?_, ?_⟩
  · simp [think_and_act, hres, hfx]
  · intro pr
    simp [think_and_act, hres, hfx]
  · have hr : (think_and_act env st input).reply =
        format_response ((get_paper_details env pid).1) := by
      simp [think_and_act, hres]
    rw [hr]
    exact hkey

/-- Witness for C1 at the spec's end-to-end utterance. -/
theorem C1_id_shortcut_witness :
    resolveIntent st0.cache "Tell me about paper 37635766".toList =
      Intent.idLookup "37635766".toList ∧
    (think_and_act envMissing st0 "Tell me about paper 37635766".toList).effects =
      [Effect.fetchCall "37635766".toList] ∧
    "37635766".toList <:+:
      (think_and_act envMissing st0 "Tell me about paper 37635766".toList).reply := by
  have h := C1_id_shortcut envMissing st0 "Tell me about paper 37635766".toList
    "37635766".toList (by decide) (by decide) (fun m hp => FetchResult.noConfusion hp)
  exact ⟨h.1, h.2.1, h.2.2.2⟩

/-- Environment whose model output names an unregistered tool. -/
def envC2 : Env :=
  { llm := fun _ => "Tool: frobnicate(\"x\")".toList,
    esearch := fun _ => .ok "0".toList [], efetch := fun _ => .missing }

/-- Claim C2 counterexample: when the model output parses as a call of an
unregistered operation, the loop replies "Unknown tool: frobnicate" — not
the fixed clarification message the claim requires. -/
theorem C2_unknown_tool_counterexample :
    (think_and_act envC2 st0 "please run that tool".toList).reply =
      "Unknown tool: frobnicate".toList ∧
    (think_and_act envC2 st0 "please run that tool".toList).reply ≠
      clarificationMsg := by decide

/-- Claim C2 (amended): for every model output parsing as
ToolName("argument") with ToolName outside the three registered
operations, no tool is invoked (the only outward call of the turn is the
model call) and the loop replies with the distinct "Unknown tool:"
message (possibly decorated by the formatter) rather than with the fixed
clarification message. -/
theorem C2_unknown_tool (env : Env) (st : AgentState) (input out tname arg : Str)
    (hres : resolveIntent st.cache input = .modelPhase)
    (hllm : env.llm (mkPrompt (st.history ++ ["User: ".toList ++ input]) input) = out)
    (hdir : ("Direct:".toList.isPrefixOf out) = false)
    (hparse : parse_tool_call out = some (tname, arg))
    (hname : toolNames.contains tname = false) :
    (think_and_act env st input).effects =
      [.llmCall (mkPrompt (st.history ++ ["User: ".toList ++ input]) input)] ∧
    ((think_and_act env st input).reply = "Unknown tool: ".toList ++ tname ∨
      (think_and_act env st input).reply =
        "📚 ".toList ++ ("Unknown tool: ".toList ++ tname) ++
        "\n\nWould you like me to show details for any of these papers?".toList) ∧
    (think_and_act env st input).reply ≠ clarificationMsg := by
  have hexec : execute_tool env tname arg = ("Unknown tool: ".toList ++ tname, []) := by
    have hnm : tname ∉ toolNames := by simpa using hname
    simp [execute_tool, hname]
    intro hmem
    exact absurd hmem hnm
  have hne : (tname == "search_papers_by_author".toList) = false := by
    cases hbe : tname == "search_papers_by_author".toList
    · rfl
    · exfalso
      have := eq_of_beq hbe
      subst this
      simp [toolNames] at hname
  have heff : (think_and_act env st input).effects =
      [.llmCall (mkPrompt (st.history ++ ["User: ".toList ++ input]) input)] := by
    simp only [think_and_act, hres, hllm, hdir, hparse, hexec, hne, Bool.false_and,
      Bool.false_eq_true, if_false]
  have hrep : (think_and_act env st input).reply =
      format_response ("Unknown tool: ".toList ++ tname) := by
    simp only [think_and_act, hres, hllm, hdir, hparse, hexec, hne, Bool.false_and,
      Bool.false_eq_true, if_false]
  refine ⟨heff, ?_, ?_⟩
  · rw [hrep]
    exact format_response_cases _
  · rw [hrep]
    rcases format_response_cases ("Unknown tool: ".toList ++ tname) with h | h <;> rw [h]
    · exact ne_of_head 'U' 'I' _ _ (by decide)
    · exact ne_of_head '📚' 'I' _ _ (by decide)

/-- Witness for C2 (amended) at a concrete unregistered tool call. -/
theorem C2_unknown_tool_witness :
    (think_and_act envC2 st0 "please run that tool".toList).effects =
      [Effect.llmCall (mkPrompt (st0.history ++
        ["User: ".toList ++ "please run that tool".toList])
        "please run that tool".toList)] ∧
    (think_and_act envC2 st0 "please run that tool".toList).reply ≠
      clarificationMsg := by
  have h := C2_unknown_tool envC2 st0 "please run that tool".toList
    "Tool: frobnicate(\"x\")".toList "frobnicate".toList "x".toList
    (by decide) rfl (by decide) (by decide) (by decide)
  exact ⟨h.1, h.2.2⟩

/-- Claim C6: the title search issues the exact quoted-title query
first; a nonempty hit immediately hydrates the FIRST identifier through
the Record Fetcher; an empty first attempt triggers exactly one unquoted
retry, whose nonempty hit is hydrated the same way; two empty attempts
produce the fixed not-found value (a value, not an exception — the
embedding is total). -/
theorem C6_title_search (env : Env) (title : Str) :
    (∀ c id1 rest, env.esearch (quotedTitleTerm title) = .ok c (id1 :: rest) →
      search_paper_by_title env title =
        ((get_paper_details env id1).1,
         .searchCall (quotedTitleTerm title) :: (get_paper_details env id1).2)) ∧
    (∀ c c2 id1 rest, env.esearch (quotedTitleTerm title) = .ok c [] →
      env.esearch (plainTitleTerm title) = .ok c2 (id1 :: rest) →
      search_paper_by_title env title =
        ((get_paper_details env id1).1,
         .searchCall (quotedTitleTerm title) :: .searchCall (plainTitleTerm title) ::
           (get_paper_details env id1).2)) ∧
    (∀ c c2, env.esearch (quotedTitleTerm title) = .ok c [] →
      env.esearch (plainTitleTerm title) = .ok c2 [] →
      search_paper_by_title env title =
        (noTitleMsg,
         [.searchCall (quotedTitleTerm title), .searchCall (plainTitleTerm title)])) := by
  refine ⟨?_, ?_, ?_⟩
  · intro c id1 rest h
    simp only [search_paper_by_title, h]
  · intro c c2 id1 rest hq hp
    simp only [search_paper_by_title, hq, hp]
  · intro c c2 hq hp
    simp only [search_paper_by_title, hq, hp]

/-- Title used by the C6 witness. -/
def titleX : Str := "HgutMgene-Miner".toList

/-- Environment where the quoted title query hits. -/
def envT1 : Env :=
  { llm := fun _ => [],
    esearch := fun t =>
      if t == quotedTitleTerm titleX then .ok "1".toList ["40125545".toList]
      else .ok "0".toList [],
    efetch := fun _ => .missing }

/-- Environment where only the unquoted retry hits. -/
def envT2 : Env :=
  { llm := fun _ => [],
    esearch := fun t =>
      if t == plainTitleTerm titleX then .ok "1".toList ["40125545".toList]
      else .ok "0".toList [],
    efetch := fun _ => .missing }

/-- Witness for C6 in all three branches at concrete environments. -/
theorem C6_title_search_witness :
    search_paper_by_title envT1 titleX =
      ((get_paper_details envT1 "40125545".toList).1,
       .searchCall (quotedTitleTerm titleX) ::
         (get_paper_details envT1 "40125545".toList).2) ∧
    search_paper_by_title envT2 titleX =
      ((get_paper_details envT2 "40125545".toList).1,
       .searchCall (quotedTitleTerm titleX) :: .searchCall (plainTitleTerm titleX) ::
         (get_paper_details envT2 "40125545".toList).2) ∧
    search_paper_by_title envMissing titleX =
      (noTitleMsg,
       [.searchCall (quotedTitleTerm titleX), .searchCall (plainTitleTerm titleX)]) :=
  ⟨(C6_title_search envT1 titleX).1 "1".toList "40125545".toList [] rfl,
   (C6_title_search envT2 titleX).2.1 "0".toList "1".toList "40125545".toList [] rfl rfl,
   (C6_title_search envMissing titleX).2.2 "0".toList "0".toList rfl rfl⟩

/-! ### Claim C5: author search with auto-expansion -/

/-- The spec's end-to-end author-search utterance. -/
def c5input : Str := "Show papers by Dr. Jane Doe".toList

/-- The model output requesting the author search. -/
def c5tool : Str := "Tool: search_papers_by_author(\"Dr. Jane Doe\")".toList

/-- The concrete part of the author-search summary, before the ids. -/
def c5prefix : Str := "Found 5 papers by Jane Doe. Paper IDs: ".toList

/-- The same prefix without its final space. -/
def c5init : Str := "Found 5 papers by Jane Doe. Paper IDs:".toList

theorem idToken_word {i : Str} (h : isIdToken i = true) :
    i ≠ [] ∧ ∀ c ∈ i, isWordChar c = true := by
  obtain ⟨_, h7, _, hall⟩ := isIdToken_facts h
  constructor
  · intro he
    rw [he] at h7
    simp at h7
  · exact fun c hc => isWordChar_of_digit (hall c hc)

/-- Claim C5: on the utterance "Show papers by Dr. Jane Doe", a model
reply requesting the author search, and an index reporting count "5"
with five identifiers (each a well-formed 7-to-9-digit id), the loop
makes one model call, one index call, caches the five identifiers under
paper_1 .. paper_5, issues exactly three Record Fetcher calls for the
first three identifiers in identifier-list order, and replies with the
multi-record formatter applied to the search summary followed by the
three hydrated records in that order. -/
theorem C5_author_autoexpand (env : Env) (st : AgentState) (i1 i2 i3 i4 i5 : Str)
    (h1 : isIdToken i1 = true) (h2 : isIdToken i2 = true) (h3 : isIdToken i3 = true)
    (h4 : isIdToken i4 = true) (h5 : isIdToken i5 = true)
    (hllm : env.llm (mkPrompt (st.history ++ ["User: ".toList ++ c5input]) c5input) = c5tool)
    (hsearch : env.esearch (authorTerm "Jane Doe".toList) =
      .ok "5".toList [i1, i2, i3, i4, i5]) :
    resolveIntent st.cache c5input = .modelPhase ∧
    (think_and_act env st c5input).effects =
      [.llmCall (mkPrompt (st.history ++ ["User: ".toList ++ c5input]) c5input),
       .searchCall (authorTerm "Jane Doe".toList),
       .fetchCall i1, .fetchCall i2, .fetchCall i3] ∧
    (cacheFind (paperKey 1) (think_and_act env st c5input).state.cache = some i1 ∧
     cacheFind (paperKey 2) (think_and_act env st c5input).state.cache = some i2 ∧
     cacheFind (paperKey 3) (think_and_act env st c5input).state.cache = some i3 ∧
     cacheFind (paperKey 4) (think_and_act env st c5input).state.cache = some i4 ∧
     cacheFind (paperKey 5) (think_and_act env st c5input).state.cache = some i5) ∧
    (think_and_act env st c5input).reply =
      format_multiple_papers
        (List.intercalate "\n\n".toList
          [foundMsg "5".toList "Jane Doe".toList [i1, i2, i3, i4, i5],
           (get_paper_details env i1).1, (get_paper_details env i2).1,
           (get_paper_details env i3).1]) 3 := by
  have hres : resolveIntent st.cache c5input = .modelPhase := by
    unfold resolveIntent resolveCacheStep
    have hfi : findFirstId c5input = none := by decide
    rw [hfi]
    have hcav : containsSub cavityPhrase (toLowerStr c5input) = false := by decide
    simp [hcav]
  have hdir : ("Direct:".toList.isPrefixOf c5tool) = false := by decide
  have hparse : parse_tool_call c5tool =
      some ("search_papers_by_author".toList, "Dr. Jane Doe".toList) := by decide
  have hclean : cleanAuthorName "Dr. Jane Doe".toList = "Jane Doe".toList := by decide
  have hmem : toolNames.contains "search_papers_by_author".toList = true := by decide
  have hauth : containsSub "author".toList "search_papers_by_author".toList = true := by
    decide
  have hcount : (("5".toList : Str) == "0".toList) = false := by decide
  have hexec : execute_tool env "search_papers_by_author".toList "Dr. Jane Doe".toList =
      (foundMsg "5".toList "Jane Doe".toList [i1, i2, i3, i4, i5],
       [.searchCall (authorTerm "Jane Doe".toList)]) := by
    simp only [execute_tool, hmem, hauth, search_papers_by_author, hclean, hsearch,
      hcount, Bool.false_eq_true, if_false, if_true, eq_self_iff_true]
  have hR : foundMsg "5".toList "Jane Doe".toList [i1, i2, i3, i4, i5] =
      c5prefix ++ List.intercalate ", ".toList [i1, i2, i3, i4, i5] := rfl
  have hpids : containsSub "Paper IDs:".toList
      (foundMsg "5".toList "Jane Doe".toList [i1, i2, i3, i4, i5]) = true := by
    rw [hR]
    exact containsSub_left (by decide) _
  have hids : findIds (foundMsg "5".toList "Jane Doe".toList [i1, i2, i3, i4, i5]) =
      [i1, i2, i3, i4, i5] := by
    have hw : wordTokens (foundMsg "5".toList "Jane Doe".toList [i1, i2, i3, i4, i5]) =
        ["Found".toList, "5".toList, "papers".toList, "by".toList, "Jane".toList,
         "Doe".toList, "Paper".toList, "IDs".toList] ++ [i1, i2, i3, i4, i5] := by
      rw [hR]
      have hsplit : c5prefix = c5init ++ [' '] := rfl
      rw [hsplit]
      show runsAux isWordChar ((c5init ++ [' ']) ++
        List.intercalate ", ".toList [i1, i2, i3, i4, i5]) [] = _
      rw [runsAux_boundary_append isWordChar ' ' (by decide) c5init _ []]
      rw [runsAux_intercalate_ids [i1, i2, i3, i4, i5] (by
        intro i hi
        simp only [List.mem_cons, List.not_mem_nil, or_false] at hi
        rcases hi with rfl | rfl | rfl | rfl | rfl
        · exact idToken_word h1
        · exact idToken_word h2
        · exact idToken_word h3
        · exact idToken_word h4
        · exact idToken_word h5)]
      have hconc : runsAux isWordChar (c5init ++ [' ']) [] =
          ["Found".toList, "5".toList, "papers".toList, "by".toList, "Jane".toList,
           "Doe".toList, "Paper".toList, "IDs".toList] := by decide
      rw [hconc]
    rw [findIds, hw, List.filter_append]
    have hconc2 : List.filter isIdToken
        ["Found".toList, "5".toList, "papers".toList, "by".toList, "Jane".toList,
         "Doe".toList, "Paper".toList, "IDs".toList] = [] := by decide
    rw [hconc2]
    simp [List.filter_cons, h1, h2, h3, h4, h5]
  have hd1 : (get_paper_details env i1).2 = [Effect.fetchCall i1] :=
    gpd_effects env i1 (isIdToken_facts h1).1
  have hd2 : (get_paper_details env i2).2 = [Effect.fetchCall i2] :=
    gpd_effects env i2 (isIdToken_facts h2).1
  have hd3 : (get_paper_details env i3).2 = [Effect.fetchCall i3] :=
    gpd_effects env i3 (isIdToken_facts h3).1
  have hbeq : (("search_papers_by_author".toList : Str) ==
      "search_papers_by_author".toList) = true := by decide
  have heff : (think_and_act env st c5input).effects =
      [.llmCall (mkPrompt (st.history ++ ["User: ".toList ++ c5input]) c5input),
       .searchCall (authorTerm "Jane Doe".toList),
       .fetchCall i1, .fetchCall i2, .fetchCall i3] := by
    simp only [think_and_act, hres, hllm, hdir, hparse, hexec, hbeq, hpids,
      Bool.false_eq_true, Bool.true_and, if_false, if_true, eq_self_iff_true, hids,
      List.take_succ_cons, List.take_zero, List.map_cons, List.map_nil, hd1, hd2, hd3,
      List.flatten_cons, List.flatten_nil, List.cons_append, List.nil_append,
      List.append_nil]
  have hcache : (think_and_act env st c5input).state.cache =
      cacheIds [i1, i2, i3, i4, i5] st.cache := by
    simp only [think_and_act, hres, hllm, hdir, hparse, hexec, hbeq, hpids,
      Bool.false_eq_true, Bool.true_and, if_false, if_true, eq_self_iff_true, hids]
  have hreply : (think_and_act env st c5input).reply =
      format_multiple_papers
        (List.intercalate "\n\n".toList
          [foundMsg "5".toList "Jane Doe".toList [i1, i2, i3, i4, i5],
           (get_paper_details env i1).1, (get_paper_details env i2).1,
           (get_paper_details env i3).1]) 3 := by
    simp only [think_and_act, hres, hllm, hdir, hparse, hexec, hbeq, hpids,
      Bool.false_eq_true, Bool.true_and, if_false, if_true, eq_self_iff_true, hids,
      List.take_succ_cons, List.take_zero, List.map_cons, List.map_nil,
      List.length_cons, List.length_nil]
  have hchain : cacheIds [i1, i2, i3, i4, i5] st.cache =
      cacheInsert (paperKey 5) i5 (cacheInsert (paperKey 4) i4 (cacheInsert (paperKey 3) i3
        (cacheInsert (paperKey 2) i2 (cacheInsert (paperKey 1) i1 st.cache)))) := rfl
  refine ⟨hres, heff, ⟨?_, ?_, ?_, ?_, ?_⟩, hreply⟩
  · rw [hcache, hchain, cacheFind_cacheInsert_ne _ _ _ _ (by decide),
      cacheFind_cacheInsert_ne _ _ _ _ (by decide),
      cacheFind_cacheInsert_ne _ _ _ _ (by decide),
      cacheFind_cacheInsert_ne _ _ _ _ (by decide), cacheFind_cacheInsert_self]
  · rw [hcache, hchain, cacheFind_cacheInsert_ne _ _ _ _ (by decide),
      cacheFind_cacheInsert_ne _ _ _ _ (by decide),
      cacheFind_cacheInsert_ne _ _ _ _ (by decide), cacheFind_cacheInsert_self]
  · rw [hcache, hchain, cacheFind_cacheInsert_ne _ _ _ _ (by decide),
      cacheFind_cacheInsert_ne _ _ _ _ (by decide), cacheFind_cacheInsert_self]
  · rw [hcache, hchain, cacheFind_cacheInsert_ne _ _ _ _ (by decide),
      cacheFind_cacheInsert_self]
  · rw [hcache, hchain, cacheFind_cacheInsert_self]

/-- Environment for the C5 witness: a mocked index with count "5" and
five concrete identifiers. -/
def envC5 : Env :=
  { llm := fun _ => c5tool,
    esearch := fun _ => .ok "5".toList
      ["30000001".toList, "30000002".toList, "30000003".toList,
       "30000004".toList, "30000005".toList],
    efetch := fun _ => .missing }

/-- Witness for C5 at five concrete identifiers. -/
theorem C5_author_autoexpand_witness :
    (think_and_act envC5 st0 c5input).effects =
      [.llmCall (mkPrompt (st0.history ++ ["User: ".toList ++ c5input]) c5input),
       .searchCall (authorTerm "Jane Doe".toList),
       .fetchCall "30000001".toList, .fetchCall "30000002".toList,
       .fetchCall "30000003".toList] ∧
    cacheFind (paperKey 5) (think_and_act envC5 st0 c5input).state.cache =
      some "30000005".toList := by
  have h := C5_author_autoexpand envC5 st0 "30000001".toList "30000002".toList
    "30000003".toList "30000004".toList "30000005".toList
    (by decide) (by decide) (by decide) (by decide) (by decide) rfl rfl
  exact ⟨h.2.1, h.2.2.1.2.2.2.2⟩

end PubMed
